import Mathlib

/-!
Verification development for the `depth_image_proc` components of the
`image_pipeline` repository (files `src/depth_image_proc/src/disparity.cpp`
and `src/depth_image_proc/src/point_cloud_xyzi.cpp`).

The embedding is shallow: image payloads are lists of rational sample
values (IEEE float arithmetic is modelled by exact rational arithmetic),
messages are structures mirroring the ROS message fields actually read by
the code, and each callback becomes a pure function.  A callback that logs
an error and returns before publishing is modelled as returning `none`.
-/

namespace DepthImageProc

/-- Message header, carrying the fields the code copies or compares:
a time stamp and a frame id. -/
structure Header where
  stamp : Nat
  frame_id : String
deriving DecidableEq

/-- The sensor image container as read by the code: header, encoding
string, geometry, and the decoded sample payload.  `data` lists the
pixel samples row-major (`data[v * width + u]`), each sample a rational
standing for the `uint16` / `float32` / `mono8` / `mono16` value. -/
structure Image where
  header : Header
  encoding : String
  height : Nat
  width : Nat
  step : Nat
  data : List ℚ
deriving DecidableEq

/-- The camera-info fields the two callbacks read: the image geometry the
calibration was declared for, the intrinsic-matrix entries `k[0]`, `k[2]`,
`k[4]`, `k[5]` and the projection-matrix entries `p[0]`, `p[2]`, `p[3]`,
`p[5]`, `p[6]`. -/
structure CameraInfo where
  header : Header
  width : Nat
  height : Nat
  k0 : ℚ
  k2 : ℚ
  k4 : ℚ
  k5 : ℚ
  p0 : ℚ
  p2 : ℚ
  p3 : ℚ
  p5 : ℚ
  p6 : ℚ
deriving DecidableEq

/-- Encoding string `sensor_msgs::image_encodings::TYPE_16UC1`. -/
def TYPE_16UC1 : String := "16UC1"

/-- Encoding string `sensor_msgs::image_encodings::TYPE_32FC1`. -/
def TYPE_32FC1 : String := "32FC1"

/-- Encoding string `sensor_msgs::image_encodings::MONO8`. -/
def MONO8 : String := "mono8"

/-- Encoding string `sensor_msgs::image_encodings::MONO16`. -/
def MONO16 : String := "mono16"

/-- The two depth sample kinds the dispatch in `depthCb` / `imageCb`
instantiates the conversion templates at: `uint16_t` and `float`. -/
inductive DepthKind where
  | u16
  | f32
deriving DecidableEq

/-- Modelled from the spec: `DepthTraits<T>::valid` lives in
`depth_image_proc/depth_traits.hpp`, which is not among the provided
source files.  Per §4.1 of the spec, a floating-point sample is valid iff
finite and not NaN (every rational model value is), and an
unsigned-integer sample is valid iff not equal to the type's maximum
representable value (for `uint16_t`, `0xFFFF = 65535`). -/
def DepthTraits.valid : DepthKind → ℚ → Bool
  | .u16, raw => decide (raw ≠ 65535)
  | .f32, _ => true

/-- Modelled from the spec: `DepthTraits<T>::toMeters` lives in
`depth_image_proc/depth_traits.hpp`, which is not among the provided
source files.  Per §4.1 of the spec, unsigned-integer kinds are
millimeters (metric = raw × 0.001) and floating-point kinds are already
meters (metric = raw × 1.0). -/
def DepthTraits.toMeters : DepthKind → ℚ → ℚ
  | .u16, raw => raw * (1 / 1000)
  | .f32, raw => raw

/-- `DisparityNode::convert<T>` (`disparity.cpp` lines 159–182): given the
frame's `f`, `t` and the depth payload, precompute
`constant = f·t / unit_scaling` with `unit_scaling = toMeters(1)`, then
for each pixel write `constant / depth` when the sample is valid and
leave the output cell's initialized value otherwise.  `buf` is the
pre-initialized output buffer (`disp_msg->image.data`). -/
def convert (kind : DepthKind) (f t : ℚ) (depthData : List ℚ) (buf : List ℚ) : List ℚ :=
  List.zipWith
    (fun d b =>
      if DepthTraits.valid kind d then f * t / DepthTraits.toMeters kind 1 / d else b)
    depthData buf

/-- The `stereo_msgs::msg::DisparityImage` fields the code writes. -/
structure DisparityImage where
  header : Header
  image : Image
  f : ℚ
  t : ℚ
  min_disparity : ℚ
  max_disparity : ℚ
  delta_d : ℚ
deriving DecidableEq

/-- The node parameters read in the `DisparityNode` constructor. -/
structure DisparityConfig where
  min_range : ℚ
  max_range : ℚ
  delta_d : ℚ
deriving DecidableEq

/-- Encoding dispatch of `DisparityNode::depthCb` (lines 146–154):
`TYPE_16UC1` converts at `uint16_t`, `TYPE_32FC1` at `float`, anything
else is an error. -/
def encodingKind (e : String) : Option DepthKind :=
  if e = TYPE_16UC1 then some .u16
  else if e = TYPE_32FC1 then some .f32
  else none

/-- `DisparityNode::depthCb` (lines 126–157): build the disparity message
(headers and geometry from the depth message, buffer initialized to 0.0,
`f = p[0]`, `t = -p[3]/f`, range-derived disparity bounds, configured
`delta_d`), dispatch on the depth encoding, and publish; an unsupported
encoding logs an error and returns before the publish call (`none`). -/
def depthCb (cfg : DisparityConfig) (depth : Image) (info : CameraInfo) :
    Option DisparityImage :=
  match encodingKind depth.encoding with
  | none => none
  | some kind =>
      some
        { header := depth.header
          image :=
            { header := depth.header
              encoding := TYPE_32FC1
              height := depth.height
              width := depth.width
              step := depth.width * 4
              data := convert kind info.p0 (-info.p3 / info.p0) depth.data
                (List.replicate (depth.height * depth.width) 0) }
          f := info.p0
          t := -info.p3 / info.p0
          min_disparity := info.p0 * (-info.p3 / info.p0) / cfg.max_range
          max_disparity := info.p0 * (-info.p3 / info.p0) / cfg.min_range
          delta_d := cfg.delta_d }

/-- Baseline-derived term of the calibration (§3 of the design notes and
the disparity code): `baseline_term = -P[3] / fx` with `fx = P[0]`. -/
def baselineTerm (info : CameraInfo) : ℚ :=
  -info.p3 / info.p0

/-- The camera-info rescale block of `PointCloudXyziNode::imageCb`
(`point_cloud_xyzi.cpp` lines 137–150), entered when the depth and
intensity resolutions differ: the declared geometry becomes the depth
image's, and `k[0]`, `k[2]`, `k[4]`, `k[5]`, `p[0]`, `p[2]`, `p[5]`,
`p[6]` are each multiplied by
`ratio = depth_width / intensity_width`; `p[3]` is not touched. -/
def rescaleInfo (info : CameraInfo) (depthW depthH intensityW : Nat) : CameraInfo :=
  { info with
    width := depthW
    height := depthH
    k0 := info.k0 * ((depthW : ℚ) / (intensityW : ℚ))
    k2 := info.k2 * ((depthW : ℚ) / (intensityW : ℚ))
    k4 := info.k4 * ((depthW : ℚ) / (intensityW : ℚ))
    k5 := info.k5 * ((depthW : ℚ) / (intensityW : ℚ))
    p0 := info.p0 * ((depthW : ℚ) / (intensityW : ℚ))
    p2 := info.p2 * ((depthW : ℚ) / (intensityW : ℚ))
    p5 := info.p5 * ((depthW : ℚ) / (intensityW : ℚ))
    p6 := info.p6 * ((depthW : ℚ) / (intensityW : ℚ)) }

/-- The guard at `point_cloud_xyzi.cpp` line 179, written exactly as in the
source: `intensity_msg->encoding != enc::MONO8 ||
intensity_msg->encoding != enc::MONO16`.  When it holds, the intensity
image is coerced to mono8 via `cv_bridge::toCvCopy`. -/
def intensityCoercionCondition (e : String) : Bool :=
  decide (e ≠ MONO8) || decide (e ≠ MONO16)

/-- One emitted point of the xyzi cloud: four float32 channels. -/
structure PointXYZI where
  x : ℚ
  y : ℚ
  z : ℚ
  intensity : ℚ
deriving DecidableEq

/-- The `sensor_msgs::msg::PointCloud2` fields the code writes, with the
payload decoded into xyzi points. -/
structure PointCloud2 where
  header : Header
  height : Nat
  width : Nat
  is_dense : Bool
  is_bigendian : Bool
  points : List PointXYZI
deriving DecidableEq

/-- Modelled from the spec: `convertDepth<T>` lives in
`depth_image_proc/conversions.hpp`, which is not among the provided
source files.  Per §4.6 and §4.2: for every pixel `(u, v)`, a valid raw
sample gives `z = to_meters(raw)`, `x = (u - cx)·z/fx`,
`y = (v - cy)·z/fy` (with `fx = k[0]`, `cx = k[2]`, `fy = k[4]`,
`cy = k[5]`); an invalid sample gives the configured invalid-depth fill
in all three coordinates (NaN, the default fill, is modelled by the fill
value itself) — never dropped, so the cloud keeps width×height shape.
The intensity channel is left at 0 for a later pass. -/
def convertDepth (kind : DepthKind) (depth : Image) (model : CameraInfo)
    (invalid_depth : ℚ) : List PointXYZI :=
  (List.range (depth.height * depth.width)).map fun idx =>
    if DepthTraits.valid kind (depth.data.getD idx 0) then
      { x := (((idx % depth.width : Nat) : ℚ) - model.k2) *
            DepthTraits.toMeters kind (depth.data.getD idx 0) / model.k0
        y := (((idx / depth.width : Nat) : ℚ) - model.k5) *
            DepthTraits.toMeters kind (depth.data.getD idx 0) / model.k4
        z := DepthTraits.toMeters kind (depth.data.getD idx 0)
        intensity := 0 }
    else
      { x := invalid_depth, y := invalid_depth, z := invalid_depth, intensity := 0 }

/-- Modelled from the spec: `convertIntensity<T>` lives in
`depth_image_proc/conversions.hpp`, which is not among the provided
source files.  Per §4.6, each pixel's intensity sample passes through its
kind-specific conversion to float32 (8-bit and 16-bit unsigned integers
and float32 all pass through as the same numeric value, so one function
covers the template instantiations) and is written to the `intensity`
channel of the already-built cloud. -/
def convertIntensity (intensity : Image) (points : List PointXYZI) : List PointXYZI :=
  List.zipWith (fun p val => { p with intensity := val }) points intensity.data

/-- The external collaborators §1 of the spec puts out of scope:
`cv::resize` (resample an image to a new grid, keeping its encoding) and
`cv_bridge::toCvCopy(·, MONO8)` (coerce an image to mono8; `none` models
a thrown `cv_bridge::Exception`).  `imageCb` is parametric in them. -/
structure ExternalPrims where
  resize : Image → Nat → Nat → Image
  toMono8 : Image → Option Image

/-- Lines 132–176 of `point_cloud_xyzi.cpp`: the camera model is taken
from the calibration message; when the depth and intensity resolutions
differ, the model is rescaled to the depth resolution and the intensity
image resampled to the depth grid (then coerced to mono8 unless already
mono8/mono16, line 165–169).  `none` models a `cv_bridge` failure on
that path. -/
def resampleStep (ext : ExternalPrims) (depth intensityIn : Image) (info : CameraInfo) :
    Option (CameraInfo × Image) :=
  if depth.width ≠ intensityIn.width ∨ depth.height ≠ intensityIn.height then
    if (ext.resize intensityIn depth.width depth.height).encoding = MONO8 ∨
        (ext.resize intensityIn depth.width depth.height).encoding = MONO16 then
      some (rescaleInfo info depth.width depth.height intensityIn.width,
        ext.resize intensityIn depth.width depth.height)
    else
      (ext.toMono8 (ext.resize intensityIn depth.width depth.height)).map
        fun m => (rescaleInfo info depth.width depth.height intensityIn.width, m)
  else some (info, intensityIn)

/-- Lines 178–188 of `point_cloud_xyzi.cpp`: when the guard
`intensityCoercionCondition` holds, coerce the intensity image to mono8;
a thrown `cv_bridge::Exception` (`none`) logs an error and drops the
frame. -/
def coerceStep (ext : ExternalPrims) (intensity0 : Image) : Option Image :=
  if intensityCoercionCondition intensity0.encoding then ext.toMono8 intensity0
  else some intensity0

/-- `PointCloudXyziNode::imageCb` (`point_cloud_xyzi.cpp` lines 117–234).
A frame-id mismatch is only a throttled warning (lines 123–130), so it
has no control-flow effect here.  After `resampleStep` and `coerceStep`,
dispatch on the depth encoding (lines 207–215) and on the intensity
encoding (lines 218–231) follows; any logged-error `return` before the
publish call is `none`. -/
def imageCb (ext : ExternalPrims) (invalid_depth : ℚ) (depth intensityIn : Image)
    (info : CameraInfo) : Option PointCloud2 :=
  match resampleStep ext depth intensityIn info with
  | none => none
  | some (model, intensity0) =>
    match coerceStep ext intensity0 with
    | none => none
    | some intensity =>
      match encodingKind depth.encoding with
      | none => none
      | some kind =>
        if intensity.encoding = MONO8 ∨ intensity.encoding = MONO16 ∨
            intensity.encoding = TYPE_16UC1 ∨ intensity.encoding = TYPE_32FC1 then
          some
            { header := depth.header
              height := depth.height
              width := depth.width
              is_dense := false
              is_bigendian := false
              points := convertIntensity intensity
                (convertDepth kind depth model invalid_depth) }
        else none

/-- A sequence of frames handed to the disparity callback; each frame is
processed independently (the callback touches no per-frame mutable
state), so a dropped frame leaves later frames unaffected. -/
def depthCbSeq (cfg : DisparityConfig) (frames : List (Image × CameraInfo)) :
    List (Option DisparityImage) :=
  frames.map fun fr => depthCb cfg fr.1 fr.2

/-- The upstream actions the demand gate can trigger. -/
inductive GateAction where
  | sub
  | unsub
deriving DecidableEq

/-- The `matched_callback` of `DisparityNode` (`disparity.cpp` lines
104–121) and of `PointCloudXyziNode` (`point_cloud_xyzi.cpp` lines
83–113), as a step on the subscription flag (the lock makes each
notification atomic): a consumer count of zero calls `unsubscribe` on
the upstream streams; a positive count calls `subscribe` only when not
already subscribed.  Returns the new flag and the upstream call made. -/
def gateStep (subscribed : Bool) (count : Nat) : Bool × Option GateAction :=
  if count = 0 then (false, some .unsub)
  else if subscribed then (subscribed, none)
  else (true, some .sub)

/-- Fold `gateStep` over a list of consumer-count notifications,
collecting the upstream calls in order. -/
def runGateAux : List Nat → Bool → List GateAction → Bool × List GateAction
  | [], s, acc => (s, acc)
  | c :: rest, s, acc =>
    match gateStep s c with
    | (s2, some a) => runGateAux rest s2 (acc ++ [a])
    | (s2, none) => runGateAux rest s2 acc

/-- Action trace of the demand gate from the initial unsubscribed state
(subscriptions happen on demand; the node constructor subscribes
nothing). -/
def runGate (counts : List Nat) : List GateAction :=
  (runGateAux counts false []).2

/-- A message handed to the synchronizer: an identity (to state
reuse-freedom) and the header timestamp used as correlation key. -/
structure SyncMsg where
  id : Nat
  ts : Nat
deriving DecidableEq

/-- Which of the two synchronized streams a message arrives on (the
depth image stream or the camera-info stream). -/
inductive Side where
  | left
  | right
deriving DecidableEq

/-- State of the two-stream exact-time synchronizer: one bounded pending
queue per stream and the timestamp of the last emitted pair. -/
structure SyncState where
  qL : List SyncMsg
  qR : List SyncMsg
  lastTs : Option Nat
deriving DecidableEq

/-- A message older than the last emitted pair is stale and dropped. -/
def syncStale (last : Option Nat) (t : Nat) : Bool :=
  match last with
  | none => false
  | some l => decide (t < l)

/-- Keep the pending queue within its bound by FIFO eviction of the
oldest entry. -/
def syncEnqueue (bound : Nat) (q : List SyncMsg) (m : SyncMsg) : List SyncMsg :=
  if bound < (q ++ [m]).length then (q ++ [m]).tail else q ++ [m]

/-- After emitting a pair at time `t`, drop all pending messages with
timestamp at most `t` from a queue. -/
def syncDropOld (t : Nat) (q : List SyncMsg) : List SyncMsg :=
  q.filter fun b => decide (t < b.ts)

/-- Modelled from the spec: the synchronizer behind
`message_filters::TimeSynchronizer` (disparity pipeline, `disparity.cpp`
lines 62–64 and 98) is an external dependency whose implementation is
not among the provided source files.  Per §4.3: a pair is emitted only
when the two streams hold bit-identical timestamps; unmatched messages
wait in a bounded per-stream FIFO queue; once a pair is emitted,
messages no newer than it are dropped, so emission is non-decreasing in
timestamp and each message is used at most once. -/
def syncAdd (bound : Nat) (side : Side) (m : SyncMsg) (s : SyncState) :
    SyncState × Option (SyncMsg × SyncMsg) :=
  if syncStale s.lastTs m.ts then (s, none)
  else
    match side with
    | .left =>
      match s.qR.find? (fun b => b.ts == m.ts) with
      | some b => (⟨syncDropOld m.ts s.qL, syncDropOld m.ts s.qR, some m.ts⟩, some (m, b))
      | none => (⟨syncEnqueue bound s.qL m, s.qR, s.lastTs⟩, none)
    | .right =>
      match s.qL.find? (fun a => a.ts == m.ts) with
      | some a => (⟨syncDropOld m.ts s.qL, syncDropOld m.ts s.qR, some m.ts⟩, some (a, m))
      | none => (⟨s.qL, syncEnqueue bound s.qR m, s.lastTs⟩, none)

/-- Fold `syncAdd` over an arrival sequence, collecting emitted pairs. -/
def runSyncAux (bound : Nat) :
    List (Side × SyncMsg) → SyncState → List (SyncMsg × SyncMsg) →
      SyncState × List (SyncMsg × SyncMsg)
  | [], s, acc => (s, acc)
  | (side, m) :: rest, s, acc =>
    match syncAdd bound side m s with
    | (s2, some p) => runSyncAux bound rest s2 (acc ++ [p])
    | (s2, none) => runSyncAux bound rest s2 acc

/-- Emitted pairs of the synchronizer on an arrival sequence, from empty
queues. -/
def runSync (bound : Nat) (arrivals : List (Side × SyncMsg)) : List (SyncMsg × SyncMsg) :=
  (runSyncAux bound arrivals ⟨[], [], none⟩ []).2

/-- Identities of all messages pending in the synchronizer's queues. -/
def syncQueueIds (s : SyncState) : List Nat :=
  (s.qL ++ s.qR).map SyncMsg.id

/-- Identities of all messages used in the emitted pairs. -/
def syncEmitIds (ps : List (SyncMsg × SyncMsg)) : List Nat :=
  ps.flatMap fun p => [p.1.id, p.2.id]

/-- Timestamps of the emitted pairs, in emission order. -/
def syncEmitTs (ps : List (SyncMsg × SyncMsg)) : List Nat :=
  ps.map fun p => p.1.ts

/-- Invariant of the synchronizer run: all pending and emitted message
identities are distinct, emitted timestamps are non-decreasing and
bounded by the last emission time, and each emitted pair is an
exact-timestamp match. -/
def SyncInvariant (s : SyncState) (acc : List (SyncMsg × SyncMsg)) : Prop :=
  (syncQueueIds s ++ syncEmitIds acc).Nodup ∧
  List.Chain' (· ≤ ·) (syncEmitTs acc) ∧
  (∀ t ∈ syncEmitTs acc, ∀ l, s.lastTs = some l → t ≤ l) ∧
  (s.lastTs = none → acc = []) ∧
  (∀ p ∈ acc, p.1.ts = p.2.ts)

/-- Concrete configuration used in the concrete scenarios:
`min_range = 0`, `max_range = 100`, `delta_d = 1/8`. -/
def sampleCfg : DisparityConfig :=
  ⟨0, 100, 1 / 8⟩

/-- The 2×2 unsigned-16-bit depth image of the spec's concrete scenario:
millimeter values `[1000, 0xFFFF, 2000, 3000]`. -/
def sampleDepth : Image :=
  ⟨⟨7, "cam"⟩, TYPE_16UC1, 2, 2, 4, [1000, 65535, 2000, 3000]⟩

/-- Calibration for the concrete scenario: `fx = p[0] = 100` and
`p[3] = -50`, so `f·T = -p[3] = 50`. -/
def sampleInfo : CameraInfo :=
  ⟨⟨7, "cam"⟩, 2, 2, 100, 0, 100, 0, 100, 0, -50, 100, 0⟩

/-- The disparity frame `depthCb` produces on the concrete scenario. -/
def sampleDisp : DisparityImage :=
  (depthCb sampleCfg sampleDepth sampleInfo).getD
    ⟨⟨0, ""⟩, ⟨⟨0, ""⟩, "", 0, 0, 0, []⟩, 0, 0, 0, 0, 0⟩

/-- A depth image with an encoding outside the supported set. -/
def badDepth : Image :=
  ⟨⟨7, "cam"⟩, "rgb8", 2, 2, 6, [0, 0, 0, 0]⟩

/-- A mono16 intensity image with the same geometry as `sampleDepth`. -/
def sampleMono16 : Image :=
  ⟨⟨7, "cam"⟩, MONO16, 2, 2, 4, [100, 200, 300, 400]⟩

/-- Concrete external primitives: resizing keeps the image, and every
mono8 coercion throws. -/
def sampleExt : ExternalPrims :=
  ⟨fun img _ _ => img, fun _ => none⟩

/-- Calibration declared for width 640 with `p[0] = 100`, `p[3] = -50`,
used to refute the baseline-rescaling claim. -/
def rescaleSampleInfo : CameraInfo :=
  ⟨⟨0, "cam"⟩, 640, 480, 100, 320, 100, 240, 100, 320, -50, 100, 240⟩

lemma getElem?_zipWith_of_lt {α β γ : Type} (f : α → β → γ) (l1 : List α) (l2 : List β)
    (i : Nat) (d1 : α) (d2 : β) (h1 : i < l1.length) (h2 : i < l2.length) :
    (List.zipWith f l1 l2)[i]? = some (f (l1.getD i d1) (l2.getD i d2)) := by
  rw [List.getElem?_zipWith']
  rw [List.getElem?_eq_getElem h1, List.getElem?_eq_getElem h2]
  simp [List.getD_eq_getElem?_getD, List.getElem?_eq_getElem, h1, h2]

lemma getD_replicate_zero (n i : Nat) : (List.replicate n (0 : ℚ)).getD i 0 = 0 := by
  rcases lt_or_ge i n with h | h
  · simp [List.getD_eq_getElem?_getD, List.getElem?_replicate, h]
  · rw [List.getD_eq_getElem?_getD, List.getElem?_eq_none (by simpa using h)]
    rfl

lemma div_unit_scaling (kind : DepthKind) (a r : ℚ) :
    a / DepthTraits.toMeters kind 1 / r = a / DepthTraits.toMeters kind r := by
  cases kind with
  | u16 =>
      simp only [DepthTraits.toMeters]
      rw [div_div]
      ring_nf
  | f32 => simp [DepthTraits.toMeters]

lemma intensityCoercionCondition_true (e : String) :
    intensityCoercionCondition e = true := by
  by_cases h : e = MONO8
  · subst h
    decide
  · simp [intensityCoercionCondition, h]

lemma runGateAux_chain :
    ∀ (counts : List Nat) (s : Bool) (acc : List GateAction),
      List.Chain' (fun a b => ¬(a = GateAction.sub ∧ b = GateAction.sub)) acc →
      (s = true → acc.getLast? = some .sub) →
      (s = false → acc.getLast? = none ∨ acc.getLast? = some .unsub) →
      List.Chain' (fun a b => ¬(a = GateAction.sub ∧ b = GateAction.sub))
        (runGateAux counts s acc).2 := by
  intro counts
  induction counts with
  | nil => intro s acc h _ _; exact h
  | cons c rest ih =>
      intro s acc hchain htrue hfalse
      by_cases hc : c = 0
      · subst hc
        have hstep : runGateAux (0 :: rest) s acc =
            runGateAux rest false (acc ++ [.unsub]) := by
          simp [runGateAux, gateStep]
        rw [hstep]
        apply ih
        · rw [List.chain'_append]
          refine ⟨hchain, by simp, ?_⟩
          intro x _ y hy
          simp at hy
          subst hy
          simp
        · intro h; exact absurd h (by simp)
        · intro _
          right
          exact List.getLast?_concat acc
      · cases s with
        | true =>
            have hstep : runGateAux (c :: rest) true acc = runGateAux rest true acc := by
              simp [runGateAux, gateStep, hc]
            rw [hstep]
            exact ih true acc hchain htrue (by intro h; exact absurd h (by simp))
        | false =>
            have hstep : runGateAux (c :: rest) false acc =
                runGateAux rest true (acc ++ [.sub]) := by
              simp [runGateAux, gateStep, hc]
            rw [hstep]
            apply ih
            · rw [List.chain'_append]
              refine ⟨hchain, by simp, ?_⟩
              intro x hx y hy
              simp at hy
              subst hy
              rcases hfalse rfl with h | h
              · rw [h] at hx; simp at hx
              · rw [h] at hx
                simp at hx
                subst hx
                simp
            · intro _
              exact List.getLast?_concat acc
            · intro h; exact absurd h (by simp)

lemma runGateAux_fst_pos (c : Nat) (hc : c ≠ 0) :
    ∀ (counts : List Nat) (s : Bool) (acc : List GateAction),
      (runGateAux (counts ++ [c]) s acc).1 = true := by
  intro counts
  induction counts with
  | nil =>
      intro s acc
      cases s <;> simp [runGateAux, gateStep, hc]
  | cons x rest ih =>
      intro s acc
      by_cases hx : x = 0
      · subst hx
        simpa [runGateAux, gateStep] using ih false _
      · cases s
        · simpa [runGateAux, gateStep, hx] using ih true _
        · simpa [runGateAux, gateStep, hx] using ih true _

/-- Claim C1: for every supported depth kind and every pixel of the
emitted disparity frame, a valid raw sample `d` gives
`disparity = f·T / to_meters(d)` — computed by the code as
`(f·T / unit_scale) / d` with `unit_scale = toMeters(1)`, an equal
quantity — and an invalid sample leaves the cell at the frame's
initialization value 0.0. -/
theorem disparity_pixel_value (cfg : DisparityConfig) (depth : Image) (info : CameraInfo)
    (kind : DepthKind) (hk : encodingKind depth.encoding = some kind)
    (hlen : depth.data.length = depth.height * depth.width)
    (i : Nat) (hi : i < depth.height * depth.width) :
    ∃ disp, depthCb cfg depth info = some disp ∧
      disp.image.data[i]? =
        some (if DepthTraits.valid kind (depth.data.getD i 0) = true then
          disp.f * disp.t / DepthTraits.toMeters kind (depth.data.getD i 0) else 0) ∧
      disp.f * disp.t / DepthTraits.toMeters kind (depth.data.getD i 0) =
        disp.f * disp.t / DepthTraits.toMeters kind 1 / depth.data.getD i 0 := by
  unfold depthCb
  rw [hk]
  refine ⟨_, rfl, ?_, ?_⟩
  · show (convert kind info.p0 (-info.p3 / info.p0) depth.data
        (List.replicate (depth.height * depth.width) 0))[i]? = _
    rw [convert, getElem?_zipWith_of_lt _ _ _ i 0 0 (by rw [hlen]; exact hi)
      (by rw [List.length_replicate]; exact hi)]
    rw [getD_replicate_zero]
    by_cases hv : DepthTraits.valid kind (depth.data.getD i 0) = true
    · simp only [hv, if_true]
      rw [div_unit_scaling]
    · simp only [hv, if_false]
      simp at hv
      simp [hv]
  · rw [div_unit_scaling]

/-- Witness for C1 at pixel 1 (the invalid sentinel) of the concrete
scenario. -/
theorem disparity_pixel_value_witness :
    ∃ disp, depthCb sampleCfg sampleDepth sampleInfo = some disp ∧
      disp.image.data[1]? =
        some (if DepthTraits.valid .u16 (sampleDepth.data.getD 1 0) = true then
          disp.f * disp.t / DepthTraits.toMeters .u16 (sampleDepth.data.getD 1 0) else 0) ∧
      disp.f * disp.t / DepthTraits.toMeters .u16 (sampleDepth.data.getD 1 0) =
        disp.f * disp.t / DepthTraits.toMeters .u16 1 / sampleDepth.data.getD 1 0 :=
  disparity_pixel_value sampleCfg sampleDepth sampleInfo .u16 (by rfl) (by rfl) 1
    (by norm_num [sampleDepth])

/-- Claim C2: on the 2×2 unsigned-16-bit depth image
`[1000, 0xFFFF, 2000, 3000]` with `fx = 100` and `f·T = 50`, the
unsigned-integer sentinel is the maximum representable value (a sample
is valid iff it differs from 65535) and the emitted grid is
`[50, 0 (unchanged), 25, 50/3]`, the last value being the exact form of
the spec's rounded 16.6667 (within 1/1000 of it). -/
theorem disparity_concrete_grid :
    (∀ r : ℚ, DepthTraits.valid .u16 r = true ↔ r ≠ 65535) ∧
    (∃ disp, depthCb sampleCfg sampleDepth sampleInfo = some disp ∧
      disp.image.data = [50, 0, 25, 50 / 3]) ∧
    |(50 : ℚ) / 3 - 166667 / 10000| < 1 / 1000 := by
  refine ⟨?_, ⟨sampleDisp, by rfl, ?_⟩, by rw [abs_sub_lt_iff]; constructor <;> norm_num⟩
  · intro r
    simp [DepthTraits.valid]
  · norm_num [sampleDisp, depthCb, convert, encodingKind, sampleCfg, sampleDepth,
      sampleInfo, DepthTraits.valid, DepthTraits.toMeters, TYPE_16UC1, TYPE_32FC1,
      List.zipWith, List.replicate]

/-- Counterexample to C3: for the calibration declared at width 640 with
`p[0] = 100`, `p[3] = -50` and a 320-wide depth image, the rescaled
baseline term `-p[3]/p[0]` is 1, not the claimed half of the original
(which would be 1/4): the code multiplies `p[0]` by the ratio but leaves
`p[3]` untouched. -/
theorem rescale_baseline_not_scaled :
    ¬ (baselineTerm (rescaleInfo rescaleSampleInfo 320 240 640) =
        baselineTerm rescaleSampleInfo * ((320 : ℚ) / 640)) := by
  norm_num [baselineTerm, rescaleInfo, rescaleSampleInfo]

/-- Claim C3 as amended: when the resolutions differ, `fx, fy, cx, cy`
(both the `k` and `p` entries) are each multiplied by
`ratio = depth_width / intensity_width` — in the 640→320 scenario each
is exactly halved — but the projection entry `p[3]` is unchanged, so the
baseline term `T = -p[3]/fx` is divided by the ratio (and `f·T = -p[3]`
is unchanged) rather than multiplied by it. -/
theorem rescale_intrinsics_scaled (info : CameraInfo) (dW dH iW : Nat) :
    (rescaleInfo info dW dH iW).k0 = info.k0 * ((dW : ℚ) / iW) ∧
    (rescaleInfo info dW dH iW).k4 = info.k4 * ((dW : ℚ) / iW) ∧
    (rescaleInfo info dW dH iW).k2 = info.k2 * ((dW : ℚ) / iW) ∧
    (rescaleInfo info dW dH iW).k5 = info.k5 * ((dW : ℚ) / iW) ∧
    (rescaleInfo info dW dH iW).p0 = info.p0 * ((dW : ℚ) / iW) ∧
    (rescaleInfo info dW dH iW).p2 = info.p2 * ((dW : ℚ) / iW) ∧
    (rescaleInfo info dW dH iW).p5 = info.p5 * ((dW : ℚ) / iW) ∧
    (rescaleInfo info dW dH iW).p6 = info.p6 * ((dW : ℚ) / iW) ∧
    (rescaleInfo info dW dH iW).p3 = info.p3 ∧
    baselineTerm (rescaleInfo info dW dH iW) = baselineTerm info / ((dW : ℚ) / iW) ∧
    (rescaleInfo info 320 240 640).k0 = info.k0 / 2 ∧
    (rescaleInfo info 320 240 640).k4 = info.k4 / 2 ∧
    (rescaleInfo info 320 240 640).k2 = info.k2 / 2 ∧
    (rescaleInfo info 320 240 640).k5 = info.k5 / 2 ∧
    (rescaleInfo info 320 240 640).p0 = info.p0 / 2 := by
  refine ⟨rfl, rfl, rfl, rfl, rfl, rfl, rfl, rfl, rfl, ?_, ?_, ?_, ?_, ?_, ?_⟩
  · simp only [baselineTerm, rescaleInfo, div_div]
  all_goals
    simp only [rescaleInfo]
    norm_num
    ring

/-- Claim C4 is wrong about the code: the guard at line 179,
`encoding != MONO8 || encoding != MONO16`, is true for every encoding
(no string equals both), so mono8 and mono16 intensity images are also
sent to the mono8 coercion instead of passing through — contradicting
the comment `// Supported color encodings: MONO8, MONO16` directly above
it (the intent is `&&`).  In particular a mono16 frame with matching
dimensions reaches `cv_bridge::toCvCopy(·, MONO8)`; here, with a
coercion that fails, the frame is dropped. -/
theorem intensity_guard_always_coerces :
    intensityCoercionCondition MONO16 = true ∧ intensityCoercionCondition MONO8 = true ∧
    (∀ e : String, intensityCoercionCondition e = true) ∧
    imageCb sampleExt 0 sampleDepth sampleMono16 sampleInfo = none :=
  ⟨intensityCoercionCondition_true MONO16, intensityCoercionCondition_true MONO8,
    intensityCoercionCondition_true, rfl⟩

/-- Claim C9: the per-frame disparity conversion is deterministic —
running it twice on the same (depth buffer, intrinsics) pair yields
identical output: the callback is a pure function of its inputs (the
C++ `convert` reads only its arguments and writes only the freshly
allocated output buffer). -/
theorem disparity_deterministic (cfg : DisparityConfig) (d1 d2 : Image)
    (i1 i2 : CameraInfo) (hd : d1 = d2) (hi : i1 = i2) :
    depthCb cfg d1 i1 = depthCb cfg d2 i2 := by
  subst hd
  subst hi
  rfl

/-- Witness for C9 at the concrete scenario inputs. -/
theorem disparity_deterministic_witness :
    depthCb sampleCfg sampleDepth sampleInfo = depthCb sampleCfg sampleDepth sampleInfo :=
  disparity_deterministic sampleCfg sampleDepth sampleDepth sampleInfo sampleInfo rfl rfl

/-- Claim C5: every emitted disparity frame has `f = P[0]`,
`T = -P[3]/P[0]`, `min_disparity = f·T / max_range`,
`max_disparity = f·T / min_range` and the configured `delta_d`; the
fields are set once in `depthCb` and `convert` never touches them, so
the published frame still satisfies the invariant. -/
theorem disparity_frame_bounds (cfg : DisparityConfig) (depth : Image)
    (info : CameraInfo) (disp : DisparityImage)
    (h : depthCb cfg depth info = some disp) :
    disp.f = info.p0 ∧ disp.t = -info.p3 / info.p0 ∧
    disp.min_disparity = disp.f * disp.t / cfg.max_range ∧
    disp.max_disparity = disp.f * disp.t / cfg.min_range ∧
    disp.delta_d = cfg.delta_d := by
  unfold depthCb at h
  cases hk : encodingKind depth.encoding with
  | none =>
      rw [hk] at h
      exact Option.noConfusion h
  | some kind =>
      rw [hk] at h
      injection h with h'
      subst h'
      exact ⟨rfl, rfl, rfl, rfl, rfl⟩

/-- Witness for C5 at the concrete scenario inputs. -/
theorem disparity_frame_bounds_witness :
    sampleDisp.f = sampleInfo.p0 ∧ sampleDisp.t = -sampleInfo.p3 / sampleInfo.p0 ∧
    sampleDisp.min_disparity = sampleDisp.f * sampleDisp.t / sampleCfg.max_range ∧
    sampleDisp.max_disparity = sampleDisp.f * sampleDisp.t / sampleCfg.min_range ∧
    sampleDisp.delta_d = sampleCfg.delta_d :=
  disparity_frame_bounds sampleCfg sampleDepth sampleInfo sampleDisp (by rfl)

/-- Claim C10: every published disparity frame carries the fixed output
metadata derived from the depth message: float32 encoding, the depth
image's width and height, `step = width × 4` bytes, a data buffer of
`height × step` bytes (each cell 4 bytes), and the depth message's
header on both the frame and the image. -/
theorem disparity_frame_metadata (cfg : DisparityConfig) (depth : Image)
    (info : CameraInfo) (disp : DisparityImage)
    (h : depthCb cfg depth info = some disp)
    (hlen : depth.data.length = depth.height * depth.width) :
    disp.image.encoding = TYPE_32FC1 ∧ disp.image.height = depth.height ∧
    disp.image.width = depth.width ∧ disp.image.step = depth.width * 4 ∧
    disp.image.data.length * 4 = disp.image.height * disp.image.step ∧
    disp.header = depth.header ∧ disp.image.header = depth.header := by
  unfold depthCb at h
  cases hk : encodingKind depth.encoding with
  | none =>
      rw [hk] at h
      exact Option.noConfusion h
  | some kind =>
      rw [hk] at h
      injection h with h'
      subst h'
      refine ⟨rfl, rfl, rfl, rfl, ?_, rfl, rfl⟩
      show (convert kind info.p0 (-info.p3 / info.p0) depth.data
        (List.replicate (depth.height * depth.width) 0)).length * 4 =
        depth.height * (depth.width * 4)
      rw [convert, List.length_zipWith, hlen, List.length_replicate, min_self]
      ring

/-- Witness for C10 at the concrete scenario inputs. -/
theorem disparity_frame_metadata_witness :
    sampleDisp.image.encoding = TYPE_32FC1 ∧
    sampleDisp.image.height = sampleDepth.height ∧
    sampleDisp.image.width = sampleDepth.width ∧
    sampleDisp.image.step = sampleDepth.width * 4 ∧
    sampleDisp.image.data.length * 4 = sampleDisp.image.height * sampleDisp.image.step ∧
    sampleDisp.header = sampleDepth.header ∧
    sampleDisp.image.header = sampleDepth.header :=
  disparity_frame_metadata sampleCfg sampleDepth sampleInfo sampleDisp (by rfl) (by rfl)

/-- Claim C6: on the notification sequence 0→1→1→0→2 the demand gate
makes exactly two subscribe and two unsubscribe calls; in every action
trace a subscribe is never immediately followed by another subscribe
without an intervening unsubscribe; and a count change that stays on the
positive side of zero (the only side a change can stay on) triggers no
action. -/
theorem demand_gate_behavior :
    (runGate [0, 1, 1, 0, 2] = [.unsub, .sub, .unsub, .sub] ∧
      (runGate [0, 1, 1, 0, 2]).count .sub = 2 ∧
      (runGate [0, 1, 1, 0, 2]).count .unsub = 2) ∧
    (∀ counts : List Nat,
      List.Chain' (fun a b => ¬(a = GateAction.sub ∧ b = GateAction.sub))
        (runGate counts)) ∧
    (∀ (counts : List Nat) (c1 c2 : Nat), c1 ≠ 0 → c2 ≠ 0 →
      (gateStep (runGateAux (counts ++ [c1]) false []).1 c2).2 = none) := by
  refine ⟨⟨by decide, by decide, by decide⟩, ?_, ?_⟩
  · intro counts
    exact runGateAux_chain counts false [] (by simp)
      (by intro h; exact absurd h (by simp)) (by intro _; left; rfl)
  · intro counts c1 c2 h1 h2
    rw [runGateAux_fst_pos c1 h1 counts false []]
    simp [gateStep, h2]

/-- Witness for C6's quantified part: after any positive count the gate
is subscribed, and a further positive count triggers no action. -/
theorem demand_gate_behavior_witness :
    (gateStep (runGateAux ([5] ++ [1]) false []).1 2).2 = none :=
  demand_gate_behavior.2.2 [5] 1 2 (by decide) (by decide)

/-- Claim C7: a depth frame with an unsupported encoding, or an
intensity frame whose kind the mono8 coercion cannot handle, is reported
and dropped before the publish call (result `none`) in both pipelines;
the callbacks are pure per frame, so a later well-formed frame is still
processed and published. -/
theorem unsupported_encoding_no_publish :
    (∀ (cfg : DisparityConfig) (depth : Image) (info : CameraInfo),
      encodingKind depth.encoding = none → depthCb cfg depth info = none) ∧
    (∀ (ext : ExternalPrims) (inv : ℚ) (depth intensityIn : Image) (info : CameraInfo),
      encodingKind depth.encoding = none → imageCb ext inv depth intensityIn info = none) ∧
    (∀ (ext : ExternalPrims) (inv : ℚ) (depth intensityIn : Image) (info : CameraInfo),
      depth.width = intensityIn.width → depth.height = intensityIn.height →
      ext.toMono8 intensityIn = none → imageCb ext inv depth intensityIn info = none) ∧
    (∀ (cfg : DisparityConfig) (pre : List (Image × CameraInfo)) (depth : Image)
      (info : CameraInfo) (kind : DepthKind), encodingKind depth.encoding = some kind →
      (depthCbSeq cfg (pre ++ [(depth, info)])).getLast? = some (depthCb cfg depth info) ∧
      ∃ disp, depthCb cfg depth info = some disp) := by
  refine ⟨?_, ?_, ?_, ?_⟩
  · intro cfg depth info h
    simp [depthCb, h]
  · intro ext inv depth intensityIn info h
    cases hr : resampleStep ext depth intensityIn info with
    | none => simp [imageCb, hr]
    | some p =>
        obtain ⟨model, intensity0⟩ := p
        cases hcoe : coerceStep ext intensity0 with
        | none => simp [imageCb, hr, hcoe]
        | some intensity => simp [imageCb, hr, hcoe, h]
  · intro ext inv depth intensityIn info hw hh hfail
    have hr : resampleStep ext depth intensityIn info = some (info, intensityIn) := by
      unfold resampleStep
      rw [if_neg]
      simp [hw, hh]
    have hcoe : coerceStep ext intensityIn = none := by
      unfold coerceStep
      rw [intensityCoercionCondition_true]
      · exact hfail
    simp [imageCb, hr, hcoe]
  · intro cfg pre depth info kind hk
    constructor
    · unfold depthCbSeq
      rw [List.map_append]
      simp
    · rw [depthCb]
      rw [hk]
      exact ⟨_, rfl⟩

/-- Witness for C7: concrete dropped frames (bad depth encoding in both
pipelines; failing intensity coercion) and a subsequent good frame that
is still published. -/
theorem unsupported_encoding_no_publish_witness :
    depthCb sampleCfg badDepth sampleInfo = none ∧
    imageCb sampleExt 0 badDepth sampleMono16 sampleInfo = none ∧
    imageCb sampleExt 0 sampleDepth sampleMono16 sampleInfo = none ∧
    ((depthCbSeq sampleCfg ([(badDepth, sampleInfo)] ++ [(sampleDepth, sampleInfo)])).getLast? =
      some (depthCb sampleCfg sampleDepth sampleInfo) ∧
      ∃ disp, depthCb sampleCfg sampleDepth sampleInfo = some disp) :=
  ⟨unsupported_encoding_no_publish.1 sampleCfg badDepth sampleInfo rfl,
   unsupported_encoding_no_publish.2.1 sampleExt 0 badDepth sampleMono16 sampleInfo rfl,
   unsupported_encoding_no_publish.2.2.1 sampleExt 0 sampleDepth sampleMono16 sampleInfo
     rfl rfl rfl,
   unsupported_encoding_no_publish.2.2.2 sampleCfg [(badDepth, sampleInfo)] sampleDepth
     sampleInfo .u16 rfl⟩

lemma mem_of_getLast?_eq (l : List Nat) (a : Nat) (h : l.getLast? = some a) : a ∈ l := by
  rcases List.mem_getLast?_eq_getLast (by simpa using h) with ⟨hne, rfl⟩
  exact List.getLast_mem hne

lemma syncEnqueue_ids_sublist (bound : Nat) (q : List SyncMsg) (m : SyncMsg) :
    List.Sublist ((syncEnqueue bound q m).map SyncMsg.id)
      (q.map SyncMsg.id ++ [m.id]) := by
  unfold syncEnqueue
  split
  · have h1 := List.Sublist.map SyncMsg.id (List.tail_sublist (q ++ [m]))
    simpa using h1
  · simp

lemma syncDropOld_ids_sublist (t : Nat) (q : List SyncMsg) :
    List.Sublist ((syncDropOld t q).map SyncMsg.id) (q.map SyncMsg.id) :=
  List.Sublist.map SyncMsg.id (List.filter_sublist q)

lemma dropOld_id_not_mem {t : Nat} {q : List SyncMsg} {b : SyncMsg}
    (hq : (q.map SyncMsg.id).Nodup) (hb : b ∈ q) (hts : b.ts = t) :
    b.id ∉ (syncDropOld t q).map SyncMsg.id := by
  intro hmem
  obtain ⟨b', hb'mem, hb'id⟩ := List.mem_map.mp hmem
  have hb'q : b' ∈ q := (List.filter_sublist q).subset hb'mem
  have heq : b' = b := List.inj_on_of_nodup_map hq hb'q hb hb'id
  subst heq
  have hfil := (List.mem_filter.mp hb'mem).2
  rw [hts] at hfil
  simp at hfil

lemma matched_ids_nodup {A B E A2 B2 : List Nat} {mid bid : Nat} {L : List Nat}
    (hA2 : List.Sublist A2 A) (hB2 : List.Sublist B2 B)
    (hold : (A ++ (B ++ E)).Nodup)
    (hm : mid ∉ A ++ (B ++ E))
    (hbid_old : bid ∈ A ++ (B ++ E))
    (hbid_small : bid ∉ A2 ++ (B2 ++ E))
    (hL : L = [mid, bid] ∨ L = [bid, mid]) :
    (A2 ++ (B2 ++ (E ++ L))).Nodup := by
  have hx : A2 ++ (B2 ++ (E ++ L)) = (A2 ++ (B2 ++ E)) ++ L := by
    simp [List.append_assoc]
  rw [hx]
  have hsub : List.Sublist (A2 ++ (B2 ++ E)) (A ++ (B ++ E)) :=
    List.Sublist.append hA2 (List.Sublist.append hB2 (List.Sublist.refl E))
  have hsmall : (A2 ++ (B2 ++ E)).Nodup := List.Nodup.sublist hsub hold
  have hmid_small : mid ∉ A2 ++ (B2 ++ E) := fun h => hm (hsub.subset h)
  have hne : mid ≠ bid := fun h => hm (h ▸ hbid_old)
  refine (List.Perm.nodup_iff List.perm_append_comm).mpr ?_
  refine List.nodup_append.mpr ⟨?_, hsmall, ?_⟩
  · rcases hL with h | h <;> subst h <;> simp [hne, hne.symm]
  · intro x hx1
    rcases hL with h | h <;> subst h <;> simp at hx1 <;>
      rcases hx1 with h1 | h1 <;> subst h1
    · exact hmid_small
    · exact hbid_small
    · exact hbid_small
    · exact hmid_small

lemma sync_last_bound {s : SyncState} {acc : List (SyncMsg × SyncMsg)} {mts : Nat}
    (hinv : SyncInvariant s acc) (hst : syncStale s.lastTs mts = false) :
    ∀ t ∈ syncEmitTs acc, t ≤ mts := by
  intro t ht
  cases hl : s.lastTs with
  | none =>
      rw [hinv.2.2.2.1 hl] at ht
      simp [syncEmitTs] at ht
  | some l =>
      have h1 := hinv.2.2.1 t ht l hl
      rw [hl] at hst
      simp only [syncStale, decide_eq_false_iff_not] at hst
      exact le_trans h1 (Nat.le_of_not_lt hst)

lemma syncAdd_preserves (bound : Nat) (side : Side) (m : SyncMsg) (s : SyncState)
    (acc : List (SyncMsg × SyncMsg)) (hinv : SyncInvariant s acc)
    (hm : m.id ∉ syncQueueIds s ++ syncEmitIds acc) :
    SyncInvariant (syncAdd bound side m s).1 (acc ++ (syncAdd bound side m s).2.toList) ∧
    ∀ i ∈ syncQueueIds (syncAdd bound side m s).1 ++
        syncEmitIds (acc ++ (syncAdd bound side m s).2.toList),
      i = m.id ∨ i ∈ syncQueueIds s ++ syncEmitIds acc := by
  obtain ⟨hOLD, hchain, hbound, hnone, hpairs⟩ := hinv
  have hOLD' : (s.qL.map SyncMsg.id ++ (s.qR.map SyncMsg.id ++ syncEmitIds acc)).Nodup := by
    simpa [syncQueueIds, List.append_assoc] using hOLD
  have hm' : m.id ∉ s.qL.map SyncMsg.id ++ (s.qR.map SyncMsg.id ++ syncEmitIds acc) := by
    simpa [syncQueueIds, List.append_assoc] using hm
  cases hst : syncStale s.lastTs m.ts with
  | true =>
      have hadd : syncAdd bound side m s = (s, none) := by
        unfold syncAdd
        simp [hst]
      rw [hadd]
      simp only [Option.toList_none, List.append_nil]
      exact ⟨⟨hOLD, hchain, hbound, hnone, hpairs⟩, fun i hi => Or.inr hi⟩
  | false =>
      cases side with
      | left =>
          cases hf : s.qR.find? (fun b => b.ts == m.ts) with
          | none =>
              have hadd : syncAdd bound Side.left m s =
                  (⟨syncEnqueue bound s.qL m, s.qR, s.lastTs⟩, none) := by
                unfold syncAdd
                simp [hst, hf]
              rw [hadd]
              simp only [Option.toList_none, List.append_nil]
              have hsubL := syncEnqueue_ids_sublist bound s.qL m
              have hbig : ((s.qL.map SyncMsg.id ++ [m.id]) ++
                  (s.qR.map SyncMsg.id ++ syncEmitIds acc)).Nodup := by
                rw [List.append_assoc, List.singleton_append]
                exact List.nodup_middle.mpr (List.nodup_cons.mpr ⟨hm', hOLD'⟩)
              constructor
              · refine ⟨?_, hchain, hbound, hnone, hpairs⟩
                simp only [syncQueueIds, List.map_append, List.append_assoc]
                exact List.Nodup.sublist
                  (List.Sublist.append hsubL (List.Sublist.refl _)) hbig
              · intro i hi
                simp only [syncQueueIds, List.map_append, List.append_assoc] at hi ⊢
                rcases List.mem_append.mp hi with h1 | h2
                · rcases List.mem_append.mp (hsubL.subset h1) with h3 | h4
                  · exact Or.inr (List.mem_append.mpr (Or.inl h3))
                  · simp at h4
                    exact Or.inl h4
                · exact Or.inr (List.mem_append.mpr (Or.inr h2))
          | some b =>
              have hbR : b ∈ s.qR := List.mem_of_find?_eq_some hf
              have hbts : b.ts = m.ts := by
                have hpred := List.find?_some hf
                simpa using hpred
              have hbidR : b.id ∈ s.qR.map SyncMsg.id := List.mem_map_of_mem _ hbR
              have hqRnodup : (s.qR.map SyncMsg.id).Nodup :=
                List.Nodup.of_append_left hOLD'.of_append_right
              have hdisLRE := (List.nodup_append.mp hOLD').2.2
              have hdisRE := List.disjoint_of_nodup_append hOLD'.of_append_right
              have hadd : syncAdd bound Side.left m s =
                  (⟨syncDropOld m.ts s.qL, syncDropOld m.ts s.qR, some m.ts⟩,
                    some (m, b)) := by
                unfold syncAdd
                simp [hst, hf]
              rw [hadd]
              have hlastb := sync_last_bound
                ⟨hOLD, hchain, hbound, hnone, hpairs⟩ hst
              constructor
              · refine ⟨?_, ?_, ?_, ?_, ?_⟩
                · simp only [syncQueueIds, syncEmitIds, List.map_append,
                    List.append_assoc, Option.toList_some, List.flatMap_append,
                    List.flatMap_cons, List.flatMap_nil, List.append_nil]
                  refine matched_ids_nodup (syncDropOld_ids_sublist m.ts s.qL)
                    (syncDropOld_ids_sublist m.ts s.qR) hOLD' hm' ?_ ?_ (Or.inl rfl)
                  · exact List.mem_append.mpr
                      (Or.inr (List.mem_append.mpr (Or.inl hbidR)))
                  · intro hcon
                    rcases List.mem_append.mp hcon with h1 | h2
                    · exact hdisLRE ((syncDropOld_ids_sublist m.ts s.qL).subset h1)
                        (List.mem_append.mpr (Or.inl hbidR))
                    · rcases List.mem_append.mp h2 with h3 | h4
                      · exact dropOld_id_not_mem hqRnodup hbR hbts h3
                      · exact hdisRE hbidR h4
                · simp only [syncEmitTs, Option.toList_some, List.map_append,
                    List.map_cons, List.map_nil]
                  rw [List.chain'_append]
                  refine ⟨hchain, by simp, ?_⟩
                  intro x hx y hy
                  simp at hy
                  subst hy
                  exact hlastb x (mem_of_getLast?_eq _ _ (Option.mem_def.mp hx))
                · intro t ht l hl
                  simp at hl
                  subst hl
                  simp only [syncEmitTs, Option.toList_some, List.map_append,
                    List.map_cons, List.map_nil] at ht
                  rcases List.mem_append.mp ht with h1 | h2
                  · exact hlastb t h1
                  · simp at h2
                    subst h2
                    exact le_refl _
                · intro h
                  exact absurd h (by simp)
                · intro p hp
                  rcases List.mem_append.mp hp with h1 | h2
                  · exact hpairs p h1
                  · simp at h2
                    subst h2
                    exact hbts.symm
              · intro i hi
                simp only [syncQueueIds, syncEmitIds, List.map_append,
                  List.append_assoc, Option.toList_some, List.flatMap_append,
                  List.flatMap_cons, List.flatMap_nil, List.append_nil] at hi ⊢
                rcases List.mem_append.mp hi with h1 | h2
                · exact Or.inr (List.mem_append.mpr (Or.inl
                    ((syncDropOld_ids_sublist m.ts s.qL).subset h1)))
                · rcases List.mem_append.mp h2 with h3 | h4
                  · exact Or.inr (List.mem_append.mpr (Or.inr (List.mem_append.mpr
                      (Or.inl ((syncDropOld_ids_sublist m.ts s.qR).subset h3)))))
                  · rcases List.mem_append.mp h4 with h5 | h6
                    · exact Or.inr (List.mem_append.mpr (Or.inr
                        (List.mem_append.mpr (Or.inr h5))))
                    · simp at h6
                      rcases h6 with h7 | h7
                      · exact Or.inl h7
                      · subst h7
                        exact Or.inr (List.mem_append.mpr
                          (Or.inr (List.mem_append.mpr (Or.inl hbidR))))
      | right =>
          cases hf : s.qL.find? (fun a => a.ts == m.ts) with
          | none =>
              have hadd : syncAdd bound Side.right m s =
                  (⟨s.qL, syncEnqueue bound s.qR m, s.lastTs⟩, none) := by
                unfold syncAdd
                simp [hst, hf]
              rw [hadd]
              simp only [Option.toList_none, List.append_nil]
              have hsubR := syncEnqueue_ids_sublist bound s.qR m
              have hbig : (s.qL.map SyncMsg.id ++ ((s.qR.map SyncMsg.id ++ [m.id]) ++
                  syncEmitIds acc)).Nodup := by
                rw [show s.qL.map SyncMsg.id ++ ((s.qR.map SyncMsg.id ++ [m.id]) ++
                    syncEmitIds acc) = (s.qL.map SyncMsg.id ++ s.qR.map SyncMsg.id) ++
                    (m.id :: syncEmitIds acc) by simp [List.append_assoc]]
                refine List.nodup_middle.mpr (List.nodup_cons.mpr ⟨?_, ?_⟩)
                · simpa [List.append_assoc] using hm'
                · simpa [List.append_assoc] using hOLD'
              constructor
              · refine ⟨?_, hchain, hbound, hnone, hpairs⟩
                simp only [syncQueueIds, List.map_append, List.append_assoc]
                exact List.Nodup.sublist
                  (List.Sublist.append (List.Sublist.refl _)
                    (List.Sublist.append hsubR (List.Sublist.refl _))) hbig
              · intro i hi
                simp only [syncQueueIds, List.map_append, List.append_assoc] at hi ⊢
                rcases List.mem_append.mp hi with h1 | h2
                · exact Or.inr (List.mem_append.mpr (Or.inl h1))
                · rcases List.mem_append.mp h2 with h3 | h4
                  · rcases List.mem_append.mp (hsubR.subset h3) with h5 | h6
                    · exact Or.inr (List.mem_append.mpr (Or.inr
                        (List.mem_append.mpr (Or.inl h5))))
                    · simp at h6
                      exact Or.inl h6
                  · exact Or.inr (List.mem_append.mpr (Or.inr
                      (List.mem_append.mpr (Or.inr h4))))
          | some b =>
              have hbL : b ∈ s.qL := List.mem_of_find?_eq_some hf
              have hbts : b.ts = m.ts := by
                have hpred := List.find?_some hf
                simpa using hpred
              have hbidL : b.id ∈ s.qL.map SyncMsg.id := List.mem_map_of_mem _ hbL
              have hqLnodup : (s.qL.map SyncMsg.id).Nodup := hOLD'.of_append_left
              have hdisLRE := (List.nodup_append.mp hOLD').2.2
              have hadd : syncAdd bound Side.right m s =
                  (⟨syncDropOld m.ts s.qL, syncDropOld m.ts s.qR, some m.ts⟩,
                    some (b, m)) := by
                unfold syncAdd
                simp [hst, hf]
              rw [hadd]
              have hlastb := sync_last_bound
                ⟨hOLD, hchain, hbound, hnone, hpairs⟩ hst
              constructor
              · refine ⟨?_, ?_, ?_, ?_, ?_⟩
                · simp only [syncQueueIds, syncEmitIds, List.map_append,
                    List.append_assoc, Option.toList_some, List.flatMap_append,
                    List.flatMap_cons, List.flatMap_nil, List.append_nil]
                  refine matched_ids_nodup (syncDropOld_ids_sublist m.ts s.qL)
                    (syncDropOld_ids_sublist m.ts s.qR) hOLD' hm' ?_ ?_ (Or.inr rfl)
                  · exact List.mem_append.mpr (Or.inl hbidL)
                  · intro hcon
                    rcases List.mem_append.mp hcon with h1 | h2
                    · exact dropOld_id_not_mem hqLnodup hbL hbts h1
                    · rcases List.mem_append.mp h2 with h3 | h4
                      · exact hdisLRE hbidL (List.mem_append.mpr (Or.inl
                          ((syncDropOld_ids_sublist m.ts s.qR).subset h3)))
                      · exact hdisLRE hbidL (List.mem_append.mpr (Or.inr h4))
                · simp only [syncEmitTs, Option.toList_some, List.map_append,
                    List.map_cons, List.map_nil]
                  rw [List.chain'_append]
                  refine ⟨hchain, by simp, ?_⟩
                  intro x hx y hy
                  simp at hy
                  subst hy
                  rw [hbts]
                  exact hlastb x (mem_of_getLast?_eq _ _ (Option.mem_def.mp hx))
                · intro t ht l hl
                  simp at hl
                  subst hl
                  simp only [syncEmitTs, Option.toList_some, List.map_append,
                    List.map_cons, List.map_nil] at ht
                  rcases List.mem_append.mp ht with h1 | h2
                  · exact hlastb t h1
                  · simp at h2
                    subst h2
                    rw [hbts]
                · intro h
                  exact absurd h (by simp)
                · intro p hp
                  rcases List.mem_append.mp hp with h1 | h2
                  · exact hpairs p h1
                  · simp at h2
                    subst h2
                    exact hbts
              · intro i hi
                simp only [syncQueueIds, syncEmitIds, List.map_append,
                  List.append_assoc, Option.toList_some, List.flatMap_append,
                  List.flatMap_cons, List.flatMap_nil, List.append_nil] at hi ⊢
                rcases List.mem_append.mp hi with h1 | h2
                · exact Or.inr (List.mem_append.mpr (Or.inl
                    ((syncDropOld_ids_sublist m.ts s.qL).subset h1)))
                · rcases List.mem_append.mp h2 with h3 | h4
                  · exact Or.inr (List.mem_append.mpr (Or.inr (List.mem_append.mpr
                      (Or.inl ((syncDropOld_ids_sublist m.ts s.qR).subset h3)))))
                  · rcases List.mem_append.mp h4 with h5 | h6
                    · exact Or.inr (List.mem_append.mpr (Or.inr
                        (List.mem_append.mpr (Or.inr h5))))
                    · simp at h6
                      rcases h6 with h7 | h7
                      · subst h7
                        exact Or.inr (List.mem_append.mpr
                          (Or.inl hbidL))
                      · exact Or.inl h7

lemma runSyncAux_invariant (bound : Nat) :
    ∀ (arr : List (Side × SyncMsg)) (s : SyncState) (acc : List (SyncMsg × SyncMsg)),
      SyncInvariant s acc →
      (∀ a ∈ arr, a.2.id ∉ syncQueueIds s ++ syncEmitIds acc) →
      ((arr.map fun a => a.2.id).Nodup) →
      SyncInvariant (runSyncAux bound arr s acc).1 (runSyncAux bound arr s acc).2 := by
  intro arr
  induction arr with
  | nil => intro s acc hinv _ _; exact hinv
  | cons a rest ih =>
      obtain ⟨side, m⟩ := a
      intro s acc hinv hfresh hnodup
      have hm : m.id ∉ syncQueueIds s ++ syncEmitIds acc :=
        hfresh (side, m) (List.mem_cons_self _ _)
      obtain ⟨hinv2, hsub⟩ := syncAdd_preserves bound side m s acc hinv hm
      have hmrest : m.id ∉ (rest.map fun a => a.2.id) := by
        simp only [List.map_cons] at hnodup
        exact (List.nodup_cons.mp hnodup).1
      have hnodup2 : (rest.map fun a => a.2.id).Nodup := by
        simp only [List.map_cons] at hnodup
        exact (List.nodup_cons.mp hnodup).2
      have hfresh2 : ∀ a ∈ rest,
          a.2.id ∉ syncQueueIds (syncAdd bound side m s).1 ++
            syncEmitIds (acc ++ (syncAdd bound side m s).2.toList) := by
        intro a ha hcon
        rcases hsub _ hcon with h1 | h2
        · exact hmrest (List.mem_map.mpr ⟨a, ha, h1⟩)
        · exact hfresh a (List.mem_cons_of_mem _ ha) h2
      cases hadd : syncAdd bound side m s with
      | mk s2 out =>
          cases out with
          | none =>
              have hstep : runSyncAux bound ((side, m) :: rest) s acc =
                  runSyncAux bound rest s2 acc := by
                simp [runSyncAux, hadd]
              rw [hstep]
              rw [hadd] at hinv2 hfresh2
              simp only [Option.toList_none, List.append_nil] at hinv2 hfresh2
              exact ih s2 acc hinv2 hfresh2 hnodup2
          | some p =>
              have hstep : runSyncAux bound ((side, m) :: rest) s acc =
                  runSyncAux bound rest s2 (acc ++ [p]) := by
                simp [runSyncAux, hadd]
              rw [hstep]
              rw [hadd] at hinv2 hfresh2
              simp only [Option.toList_some] at hinv2 hfresh2
              exact ih s2 (acc ++ [p]) hinv2 hfresh2 hnodup2

/-- Claim C8: for every arrival sequence with distinct message
identities, the synchronizer (bounded per-stream FIFO queues, exact
timestamp matching, stale arrivals dropped) never uses the same input
message in two emitted tuples, the emitted tuples are non-decreasing in
timestamp, and every emitted pair is an exact-timestamp match. -/
theorem sync_no_reuse_monotone (bound : Nat) (arr : List (Side × SyncMsg))
    (h : (arr.map fun a => a.2.id).Nodup) :
    (syncEmitIds (runSync bound arr)).Nodup ∧
    List.Chain' (· ≤ ·) (syncEmitTs (runSync bound arr)) ∧
    (∀ p ∈ runSync bound arr, p.1.ts = p.2.ts) := by
  have hinit : SyncInvariant ⟨[], [], none⟩ [] := by
    refine ⟨?_, ?_, ?_, ?_, ?_⟩ <;> simp [syncQueueIds, syncEmitIds, syncEmitTs]
  have hres := runSyncAux_invariant bound arr ⟨[], [], none⟩ [] hinit
    (by simp [syncQueueIds, syncEmitIds]) h
  exact ⟨hres.1.of_append_right, hres.2.1, hres.2.2.2.2⟩

/-- Witness for C8 on a concrete four-arrival sequence producing two
emitted pairs. -/
theorem sync_no_reuse_monotone_witness :
    (syncEmitIds (runSync 5 [(Side.left, ⟨1, 10⟩), (Side.right, ⟨2, 10⟩),
      (Side.left, ⟨3, 20⟩), (Side.right, ⟨4, 20⟩)])).Nodup ∧
    List.Chain' (· ≤ ·) (syncEmitTs (runSync 5 [(Side.left, ⟨1, 10⟩),
      (Side.right, ⟨2, 10⟩), (Side.left, ⟨3, 20⟩), (Side.right, ⟨4, 20⟩)])) ∧
    (∀ p ∈ runSync 5 [(Side.left, ⟨1, 10⟩), (Side.right, ⟨2, 10⟩),
      (Side.left, ⟨3, 20⟩), (Side.right, ⟨4, 20⟩)], p.1.ts = p.2.ts) :=
  sync_no_reuse_monotone 5 [(Side.left, ⟨1, 10⟩), (Side.right, ⟨2, 10⟩),
    (Side.left, ⟨3, 20⟩), (Side.right, ⟨4, 20⟩)] (by decide)

end DepthImageProc
